import Mathlib

set_option autoImplicit false

/-!
Shallow embedding of the ACME certificate-order engine
(vendor/github.com/xenolf/lego/acme/client.go).  Network transport calls
(postJSON, postAsGet) are passed in as oracle functions describing the CA
responses; everything else is translated from the source.  Byte blobs
(PEM data, CSR bytes) are kept as abstract strings.
-/

namespace Acme

/-- Error details are kept abstract as strings. -/
abbrev ErrMsg := String

/-- A domain identifier in an order (Go struct identifier: Type, Value). -/
structure Identifier where
  typ : String
  value : String
  deriving DecidableEq

/-- A challenge offered by an authorization: only the type tag drives solver
selection; the token goes to the solver opaquely. -/
structure Challenge where
  typ : String
  token : String := ""
  deriving DecidableEq

/-- An ACME authorization (Go struct authorization: Status, Identifier,
Challenges). -/
structure Authorization where
  status : String
  identifier : Identifier
  challenges : List Challenge
  deriving DecidableEq

/-- ObtainError: Go map from failed domain to its error; modelled as an
association list with overwrite-on-insert, so keys stay unique.  Only lookup
and emptiness of the map are observed by the engine. -/
abbrev Failures := List (String × ErrMsg)

/-- Map lookup: Go failures[domain] (nil when absent). -/
def fget (m : Failures) (k : String) : Option ErrMsg :=
  match m with
  | [] => none
  | kv :: rest => if kv.1 = k then some kv.2 else fget rest k

/-- Map insert with overwrite: Go failures[domain] = err. -/
def fput (m : Failures) (k : String) (v : ErrMsg) : Failures :=
  match m with
  | [] => [(k, v)]
  | kv :: rest => if kv.1 = k then (kv.1, v) :: rest else kv :: fput rest k v

/-- A registered challenge solver.  The Go solver is an interface value with a
mandatory Solve method and two optional capability interfaces (preSolver,
cleanup) discovered by type assertion; outcomes of its calls are modelled as
functions of the challenge and domain (none = success). -/
structure SolverSpec where
  hasPreSolve : Bool
  preSolve : Challenge → String → Option ErrMsg
  solve : Challenge → String → Option ErrMsg
  hasCleanUp : Bool
  cleanUp : Challenge → String → Option ErrMsg

/-- The client solver registry: Go map[Challenge]solver keyed by type tag. -/
abbrev Solvers := List (String × SolverSpec)

/-- Registry lookup, Go c.solvers[Challenge(challenge.Type)]. -/
def lookupSolver (solvers : Solvers) (typ : String) : Option SolverSpec :=
  match solvers with
  | [] => none
  | ts :: rest => if ts.1 = typ then some ts.2 else lookupSolver rest typ

/-- chooseSolver scan (client.go lines 647-655): first challenge in server
order whose type has a registered solver wins; i tracks the index. -/
def chooseSolverAux (solvers : Solvers) (i : Nat) :
    List Challenge → Option (Nat × SolverSpec)
  | [] => none
  | ch :: rest =>
    match lookupSolver solvers ch.typ with
    | some s => some (i, s)
    | none => chooseSolverAux solvers (i + 1) rest

/-- Go (c *Client) chooseSolver: returns the index of the first solvable
challenge and its solver, or none (Go returns (0, nil)). -/
def chooseSolver (solvers : Solvers) (chals : List Challenge) :
    Option (Nat × SolverSpec) :=
  chooseSolverAux solvers 0 chals

/-- Go selectedAuthSolver; idx additionally records the position of the
authorization in the input list so solver invocations can be attributed. -/
structure SelectedAuthSolver where
  idx : Nat
  authz : Authorization
  challengeIndex : Nat
  solver : SolverSpec

/-- The three solver entry points, used to trace invocations. -/
inductive SolverPhase where
  | preSolveCall
  | solveCall
  | cleanUpCall
  deriving DecidableEq

/-- One solver invocation: which method was called, for the authorization at
which input position. -/
structure Event where
  phase : SolverPhase
  idx : Nat
  deriving DecidableEq

/-- Go authz.Challenges[i]; the index was produced by chooseSolver and is in
bounds by construction. -/
def getChallenge (a : Authorization) (i : Nat) : Challenge :=
  a.challenges.getD i { typ := "" }

/-- First pass of solveChallengeForAuthz (client.go lines 581-596): skip
authorizations already valid, select a solver for each of the rest, record a
failure for a domain with no matching solver. -/
def selectLoop (solvers : Solvers) :
    Nat → List Authorization → Failures → List SelectedAuthSolver × Failures
  | _, [], fails => ([], fails)
  | i, a :: rest, fails =>
    if a.status = "valid" then
      selectLoop solvers (i + 1) rest fails
    else
      match chooseSolver solvers a.challenges with
      | some cs =>
        let pf := selectLoop solvers (i + 1) rest fails
        ({ idx := i, authz := a, challengeIndex := cs.1, solver := cs.2 } :: pf.1,
          pf.2)
      | none =>
        selectLoop solvers (i + 1) rest
          (fput fails a.identifier.value
            ("[" ++ a.identifier.value ++ "] acme: Could not determine solvers"))

/-- Second pass (client.go lines 599-607): PreSolve every selected pair whose
solver has the capability (no skip check here); a failure marks the domain. -/
def preSolveLoop : List SelectedAuthSolver → Failures → List Event × Failures
  | [], fails => ([], fails)
  | p :: rest, fails =>
    if p.solver.hasPreSolve then
      let d := p.authz.identifier.value
      let f2 :=
        match p.solver.preSolve (getChallenge p.authz p.challengeIndex) d with
        | some e => fput fails d e
        | none => fails
      let ef := preSolveLoop rest f2
      (⟨SolverPhase.preSolveCall, p.idx⟩ :: ef.1, ef.2)
    else
      preSolveLoop rest fails

/-- Third pass (client.go lines 626-636): Solve every selected pair whose
domain has not already failed. -/
def solveLoop : List SelectedAuthSolver → Failures → List Event × Failures
  | [], fails => ([], fails)
  | p :: rest, fails =>
    let d := p.authz.identifier.value
    if (fget fails d).isSome then
      solveLoop rest fails
    else
      let f2 :=
        match p.solver.solve (getChallenge p.authz p.challengeIndex) d with
        | some e => fput fails d e
        | none => fails
      let ef := solveLoop rest f2
      (⟨SolverPhase.solveCall, p.idx⟩ :: ef.1, ef.2)

/-- Deferred cleanup (client.go lines 609-623), which runs after the solve
loop: CleanUp every selected pair whose solver has the capability and whose
domain has no recorded failure at that time; cleanup errors are only logged,
so the failure map is not changed. -/
def cleanUpLoop (fails : Failures) : List SelectedAuthSolver → List Event
  | [] => []
  | p :: rest =>
    if p.solver.hasCleanUp then
      if (fget fails p.authz.identifier.value).isSome then
        cleanUpLoop fails rest
      else
        ⟨SolverPhase.cleanUpCall, p.idx⟩ :: cleanUpLoop fails rest
    else
      cleanUpLoop fails rest

/-- Result of the coordinator: the trace of solver invocations in execution
order (pre-solve calls, then solve calls, then deferred cleanup calls), the
final failure map, and the returned error. -/
structure SolveOutcome where
  events : List Event
  failures : Failures
  errOut : Option Failures

/-- Go (c *Client) solveChallengeForAuthz (client.go lines 575-644). -/
def solveChallengeForAuthz (solvers : Solvers) (auths : List Authorization) :
    SolveOutcome :=
  let sf := selectLoop solvers 0 auths []
  let pf := preSolveLoop sf.1 sf.2
  let qf := solveLoop sf.1 pf.2
  let cleanEvents := cleanUpLoop qf.2 sf.1
  { events := pf.1 ++ qf.1 ++ cleanEvents
    failures := qf.2
    errOut := if qf.2 = [] then none else some qf.2 }

/-- The failure map as the deferred cleanup observes it: after select,
pre-solve and solve have all recorded their failures. -/
def failuresAfterSolve (solvers : Solvers) (auths : List Authorization) :
    Failures :=
  let sf := selectLoop solvers 0 auths []
  (solveLoop sf.1 (preSolveLoop sf.1 sf.2).2).2

/-- Order data returned by the CA (Go orderMessage). -/
structure OrderMessage where
  status : String := ""
  identifiers : List Identifier := []
  authorizations : List String := []
  finalize : String := ""
  certificate : String := ""
  deriving DecidableEq

/-- Go orderResource: the CA order message plus the URL from the Location
header and the domain list the caller supplied. -/
structure OrderResource where
  url : String := ""
  domains : List String := []
  message : OrderMessage := {}
  deriving DecidableEq

/-- Result of createOrderForIdentifiers, with the identifier list that was
submitted to the CA recorded so the wire request can be inspected. -/
structure CreateOrderResult where
  submitted : List Identifier
  result : Except ErrMsg OrderResource

/-- Go (c *Client) createOrderForIdentifiers (client.go lines 542-564): one
"dns" identifier per input domain, in input order; post is the transport call
to the new-order endpoint, returning the Location header and decoded body. -/
def createOrderForIdentifiers
    (post : List Identifier → Except ErrMsg (String × OrderMessage))
    (domains : List String) : CreateOrderResult :=
  let identifiers := domains.map (fun d => Identifier.mk "dns" d)
  { submitted := identifiers
    result :=
      match post identifiers with
      | Except.error e => Except.error e
      | Except.ok lr =>
        Except.ok { url := lr.1, domains := domains, message := lr.2 } }

/-- Collection loop of getAuthzForOrder (client.go lines 663-687): one fetch
task per authorization URL; each task delivers either an authorization or a
(domain, error) pair, where the domain comes from the partially decoded body.
Arrival order only permutes the response list and the failure map, so tasks
are collected in launch order here. -/
def getAuthzLoop (fetch : String → Except (String × ErrMsg) Authorization) :
    List String → List Authorization × Failures
  | [] => ([], [])
  | url :: rest =>
    match fetch url with
    | Except.ok a =>
      let rf := getAuthzLoop fetch rest
      (a :: rf.1, rf.2)
    | Except.error de =>
      let rf := getAuthzLoop fetch rest
      (rf.1, fput rf.2 de.1 de.2)

/-- Result of getAuthzForOrder: completed authorizations, the failure map, and
the returned error. -/
structure AuthzOutcome where
  responses : List Authorization
  failures : Failures
  errOut : Option Failures

/-- Go (c *Client) getAuthzForOrder (client.go lines 658-700). -/
def getAuthzForOrder (fetch : String → Except (String × ErrMsg) Authorization)
    (order : OrderResource) : AuthzOutcome :=
  let rf := getAuthzLoop fetch order.message.authorizations
  { responses := rf.1
    failures := rf.2
    errOut := if rf.2 = [] then none else some rf.2 }

/-- The durable certificate output (Go CertificateResource); byte-slice
fields are abstract strings, empty string = nil slice. -/
structure CertificateResource where
  domain : String := ""
  certURL : String := ""
  certStableURL : String := ""
  privateKey : String := ""
  certificate : String := ""
  issuerCertificate : String := ""
  csr : String := ""
  deriving DecidableEq

/-- Go (c *Client) checkCertResponse (client.go lines 813-869): dispatch on
the order status.  The certificate download of the valid branch (postAsGet of
the certificate URL, body read, issuer-certificate location and bundling,
lines 816-858) is abstracted as the download oracle, which returns the final
certificate bytes (bundled if requested) and the issuer-certificate bytes. -/
def checkCertResponse (download : String → Except ErrMsg (String × String))
    (order : OrderMessage) (certRes : CertificateResource) :
    Except ErrMsg (Bool × CertificateResource) :=
  if order.status = "valid" then
    match download order.certificate with
    | Except.error e => Except.error e
    | Except.ok ci =>
      Except.ok (true,
        { certRes with
            certificate := ci.1
            issuerCertificate := ci.2
            certURL := order.certificate
            certStableURL := order.certificate })
  else if order.status = "processing" then
    Except.ok (false, certRes)
  else if order.status = "invalid" then
    Except.error "order has invalid state: invalid"
  else
    Except.ok (false, certRes)

/-- The polling loop of requestCertificateForCsr (client.go lines 782-806):
every 500ms tick the order is re-fetched (poll k is the response to the k-th
re-fetch) and checkCertResponse examines it; fuel is the number of ticks the
30-second timer still allows, so fuel 0 means the stop timer fires and the
poll times out. -/
def certPollLoop (poll : Nat → Except ErrMsg OrderMessage)
    (download : String → Except ErrMsg (String × String))
    (certRes : CertificateResource) :
    Nat → Nat → Option CertificateResource × Option ErrMsg
  | 0, _ => (none, some "certificate polling timed out")
  | fuel + 1, k =>
    match poll k with
    | Except.error e => (none, some e)
    | Except.ok retOrder =>
      match checkCertResponse download retOrder certRes with
      | Except.error e => (none, some e)
      | Except.ok dc =>
        if dc.1 then (some dc.2, none)
        else certPollLoop poll download dc.2 fuel (k + 1)

/-- Go (c *Client) requestCertificateForCsr (client.go lines 750-806).
finalizeResp is the CA response to posting the CSR to the finalize endpoint;
poll gives the response to each subsequent re-fetch of the order.  Note the
source line 761: when the finalize response reports status invalid it executes
return nil, err — and err is necessarily nil at that point, so both results
are nil. -/
def requestCertificateForCsr (finalizeResp : Except ErrMsg OrderMessage)
    (poll : Nat → Except ErrMsg OrderMessage)
    (download : String → Except ErrMsg (String × String))
    (order : OrderResource) (privateKeyPem : String) (fuel : Nat) :
    Option CertificateResource × Option ErrMsg :=
  let commonName := order.domains.headD ""
  match finalizeResp with
  | Except.error e => (none, some e)
  | Except.ok retOrder =>
    if retOrder.status = "invalid" then
      (none, none)
    else
      let certRes : CertificateResource :=
        { domain := commonName
          certURL := retOrder.certificate
          privateKey := privateKeyPem }
      if retOrder.status = "valid" then
        match checkCertResponse download retOrder certRes with
        | Except.error e => (none, some e)
        | Except.ok dc =>
          if dc.1 then (some dc.2, none)
          else certPollLoop poll download dc.2 fuel 0
      else
        certPollLoop poll download certRes fuel 0

/-- Certificate-name computation of requestCertificateForOrder (client.go
lines 725-739): the common name is the first resolved domain, and the SAN list
is the common name followed by every order identifier value different from
it, in server order. -/
def certificateNames (order : OrderResource) : String × List String :=
  let commonName := order.domains.headD ""
  (commonName,
    commonName ::
      (order.message.identifiers.filter (fun a => a.value ≠ commonName)).map
        (fun a => a.value))

/-- Result of requestCertificateForOrder, with the names handed to the CSR
generator recorded. -/
structure ReqCertOutcome where
  csrCommonName : String
  csrSAN : List String
  cert : Option CertificateResource
  err : Option ErrMsg

/-- Go (c *Client) requestCertificateForOrder (client.go lines 715-748).
genCsr abstracts generateCsr (common name, SAN list, mustStaple); the private
key, freshly generated when absent, only flows into the CSR and the PEM
output, so it stays abstract in privateKeyPem. -/
def requestCertificateForOrder
    (genCsr : String → List String → Bool → Except ErrMsg String)
    (finalizeResp : Except ErrMsg OrderMessage)
    (poll : Nat → Except ErrMsg OrderMessage)
    (download : String → Except ErrMsg (String × String))
    (order : OrderResource) (privateKeyPem : String) (mustStaple : Bool)
    (fuel : Nat) : ReqCertOutcome :=
  let cn := certificateNames order
  match genCsr cn.1 cn.2 mustStaple with
  | Except.error e =>
    { csrCommonName := cn.1, csrSAN := cn.2, cert := none, err := some e }
  | Except.ok _ =>
    let ce := requestCertificateForCsr finalizeResp poll download order
      privateKeyPem fuel
    { csrCommonName := cn.1, csrSAN := cn.2, cert := ce.1, err := ce.2 }

/-- Account data exchanged with the CA (Go accountMessage, the fields
Register uses). -/
structure AccountMessage where
  contact : List String := []
  termsOfServiceAgreed : Bool := false
  deriving DecidableEq

/-- Go RegistrationResource: account URI plus server-returned body. -/
structure RegistrationResource where
  uri : String
  body : AccountMessage
  deriving DecidableEq

/-- Transport-level error: a RemoteError carries the HTTP status of a non-2xx
CA response; other transport failures are opaque. -/
inductive ReqError where
  | remote (statusCode : Nat) (detail : String)
  | network (msg : String)
  deriving DecidableEq

/-- The transport response to the new-account post as Register observes it:
the Location header, the decoded body (zero value when the response carried an
error), and the error, if any.  Modelled from the spec: postJSON itself lives
in http.go, which is not part of the sources; per the spec the signing
transport returns (responseHeaders, decodedBody) and fails with a RemoteError
carrying the CA HTTP status on non-2xx responses. -/
structure PostAccountResponse where
  location : String
  body : AccountMessage
  err : Option ReqError

/-- Result of Register: the account message that was posted, the registration
resource, and the error. -/
structure RegisterOutcome where
  posted : AccountMessage
  reg : Option RegistrationResource
  err : Option ReqError

/-- Go (c *Client) Register (client.go lines 178-209): build the account
message, post it; a RemoteError with HTTP status 409 is swallowed and the
registration resource is built from the Location header exactly as on
success; any other error is returned.  (The nil-client guard of lines 179-181
is a caller-misuse check outside this model.) -/
def Register (resp : PostAccountResponse) (email : String) (tosAgreed : Bool) :
    RegisterOutcome :=
  let accMsg : AccountMessage :=
    { contact := if email ≠ "" then ["mailto:" ++ email] else []
      termsOfServiceAgreed := tosAgreed }
  match resp.err with
  | none =>
    { posted := accMsg
      reg := some { uri := resp.location, body := resp.body }
      err := none }
  | some e =>
    match e with
    | ReqError.remote code _ =>
      if code = 409 then
        { posted := accMsg
          reg := some { uri := resp.location, body := resp.body }
          err := none }
      else { posted := accMsg, reg := none, err := some e }
    | ReqError.network _ => { posted := accMsg, reg := none, err := some e }

/-- An error returned by ObtainCertificate: either a plain error from an
early phase, or the ObtainError failure map of an aggregation step. -/
inductive ObtainErrVal where
  | plain (msg : ErrMsg)
  | obtainMap (m : Failures)
  deriving DecidableEq

/-- Result of ObtainCertificate; orderRequested records whether the new-order
request was issued to the CA (every CA request of this flow comes after it). -/
structure ObtainOutcome where
  cert : Option CertificateResource
  err : Option ObtainErrVal
  orderRequested : Bool

/-- Go (c *Client) ObtainCertificate (client.go lines 413-459): reject an
empty domain list, create the order, fetch and solve the authorizations, then
request the certificate; a certificate-request error is fanned out to every
authorization domain in an ObtainError, which is returned only when
non-empty. -/
def ObtainCertificate
    (post : List Identifier → Except ErrMsg (String × OrderMessage))
    (fetch : String → Except (String × ErrMsg) Authorization)
    (solvers : Solvers)
    (reqCert : OrderResource → Option CertificateResource × Option ErrMsg)
    (domains : List String) : ObtainOutcome :=
  if domains = [] then
    { cert := none
      err := some (ObtainErrVal.plain "no domains to obtain a certificate for")
      orderRequested := false }
  else
    match (createOrderForIdentifiers post domains).result with
    | Except.error e =>
      { cert := none, err := some (ObtainErrVal.plain e), orderRequested := true }
    | Except.ok order =>
      let ao := getAuthzForOrder fetch order
      match ao.errOut with
      | some f =>
        { cert := none, err := some (ObtainErrVal.obtainMap f)
          orderRequested := true }
      | none =>
        match (solveChallengeForAuthz solvers ao.responses).errOut with
        | some f =>
          { cert := none, err := some (ObtainErrVal.obtainMap f)
            orderRequested := true }
        | none =>
          let ce := reqCert order
          let failures :=
            match ce.2 with
            | some e =>
              ao.responses.foldl (fun m a => fput m a.identifier.value e) []
            | none => []
          if failures = [] then
            { cert := ce.1, err := none, orderRequested := true }
          else
            { cert := ce.1, err := some (ObtainErrVal.obtainMap failures)
              orderRequested := true }

/-- The decoded leading certificate of a PEM bundle, as RenewCertificate uses
it: subject common name, DNS SAN entries, CA flag. -/
structure X509Cert where
  commonName : String
  dnsNames : List String
  isCA : Bool
  deriving DecidableEq

/-- Domain-list re-derivation of RenewCertificate (client.go lines 524-536):
when the certificate has more than one DNS SAN entry, the list is the common
name followed by every SAN entry different from it; otherwise it is the
common name alone. -/
def renewDomains (cert : X509Cert) : List String :=
  if 1 < cert.dnsNames.length then
    cert.commonName :: cert.dnsNames.filter (fun d => d ≠ cert.commonName)
  else
    [cert.commonName]

/-- The domain list C4 prescribes, written from the spec sentence: the common
name first, then every SAN entry of the certificate that is not equal to the
common name.  To be compared with renewDomains, which is translated from the
source. -/
def renewDomainsClaim (cert : X509Cert) : List String :=
  cert.commonName :: cert.dnsNames.filter (fun d => d ≠ cert.commonName)

/-- Result of RenewCertificate; freshDomains records the domain list passed
to ObtainCertificate when the fresh-issuance path was taken, and csrReissued
records that the preserved-CSR path was taken instead. -/
structure RenewOutcome where
  freshDomains : Option (List String)
  csrReissued : Bool
  cert : Option CertificateResource
  err : Option ErrMsg

/-- Go (c *Client) RenewCertificate (client.go lines 487-540).  Oracles:
parsePEM decodes the PEM bundle into its (nonempty) certificate list, split
as head and tail; decodeCSR decodes preserved CSR bytes; obtainForCSR and
obtain are the two issuance entry points, with obtain taking the derived
domain list and the optional reused private key. -/
def RenewCertificate
    (parsePEM : String → Except ErrMsg (X509Cert × List X509Cert))
    (decodeCSR : String → Except ErrMsg String)
    (obtainForCSR : String → Option CertificateResource × Option ErrMsg)
    (parseKey : String → Except ErrMsg String)
    (obtain : List String → Option String →
      Option CertificateResource × Option ErrMsg)
    (cert : CertificateResource) : RenewOutcome :=
  match parsePEM cert.certificate with
  | Except.error e =>
    { freshDomains := none, csrReissued := false, cert := none, err := some e }
  | Except.ok certs =>
    if certs.1.isCA then
      { freshDomains := none, csrReissued := false, cert := none
        err := some ("[" ++ cert.domain ++
          "] Certificate bundle starts with a CA certificate") }
    else if cert.csr ≠ "" then
      match decodeCSR cert.csr with
      | Except.error e =>
        { freshDomains := none, csrReissued := true, cert := none
          err := some e }
      | Except.ok csr =>
        let ce := obtainForCSR csr
        { freshDomains := none, csrReissued := true, cert := ce.1, err := ce.2 }
    else if cert.privateKey ≠ "" then
      match parseKey cert.privateKey with
      | Except.error e =>
        { freshDomains := none, csrReissued := false, cert := none
          err := some e }
      | Except.ok k =>
        let ds := renewDomains certs.1
        let ce := obtain ds (some k)
        { freshDomains := some ds, csrReissued := false, cert := ce.1
          err := ce.2 }
    else
      let ds := renewDomains certs.1
      let ce := obtain ds none
      { freshDomains := some ds, csrReissued := false, cert := ce.1
        err := ce.2 }

theorem fput_ne_nil (m : Failures) (k : String) (v : ErrMsg) : fput m k v ≠ [] := by
  cases m with
  | nil => simp [fput]
  | cons kv rest =>
    simp only [fput]
    split <;> simp

theorem fget_fput_ne (m : Failures) (k1 k : String) (v : ErrMsg) (h : k1 ≠ k) :
    fget (fput m k1 v) k = fget m k := by
  induction m with
  | nil => simp [fput, fget, h]
  | cons kv rest ih =>
    simp only [fput]
    by_cases hk : kv.1 = k1
    · simp [fget, hk, h]
    · simp [fget, hk, ih]

theorem selectLoop_pairs_sound (solvers : Solvers) (auths : List Authorization)
    (i0 : Nat) (f0 : Failures) (p : SelectedAuthSolver)
    (hp : p ∈ (selectLoop solvers i0 auths f0).1) :
    ∃ j, auths[j]? = some p.authz ∧ p.idx = i0 + j ∧ p.authz.status ≠ "valid" := by
  induction auths generalizing i0 f0 with
  | nil => simp [selectLoop] at hp
  | cons a rest ih =>
    simp only [selectLoop] at hp
    by_cases hv : a.status = "valid"
    · simp only [hv, if_pos rfl] at hp
      obtain ⟨j, hj, hidx, hs⟩ := ih (i0 + 1) f0 hp
      exact ⟨j + 1, by simpa using hj, by omega, hs⟩
    · simp only [if_neg hv] at hp
      cases hcs : chooseSolver solvers a.challenges with
      | some cs =>
        rw [hcs] at hp
        rcases List.mem_cons.mp hp with heq | hmem
        · refine ⟨0, ?_, ?_, ?_⟩ <;> simp [heq, hv]
        · obtain ⟨j, hj, hidx, hs⟩ := ih (i0 + 1) f0 hmem
          exact ⟨j + 1, by simpa using hj, by omega, hs⟩
      | none =>
        rw [hcs] at hp
        obtain ⟨j, hj, hidx, hs⟩ := ih (i0 + 1) _ hp
        exact ⟨j + 1, by simpa using hj, by omega, hs⟩

theorem selectLoop_fails_none (solvers : Solvers) (auths : List Authorization)
    (i0 : Nat) (f0 : Failures) (k : String)
    (h0 : fget f0 k = none)
    (hna : ∀ (j : Nat) (b : Authorization), auths[j]? = some b →
      b.status ≠ "valid" → b.identifier.value ≠ k) :
    fget (selectLoop solvers i0 auths f0).2 k = none := by
  induction auths generalizing i0 f0 with
  | nil => simpa [selectLoop] using h0
  | cons a rest ih =>
    have hrest : ∀ (j : Nat) (b : Authorization), rest[j]? = some b →
        b.status ≠ "valid" → b.identifier.value ≠ k := by
      intro j b hj hs
      exact hna (j + 1) b (by simpa using hj) hs
    simp only [selectLoop]
    by_cases hv : a.status = "valid"
    · simp only [hv, if_pos rfl]
      exact ih (i0 + 1) f0 h0 hrest
    · simp only [if_neg hv]
      cases hcs : chooseSolver solvers a.challenges with
      | some cs => exact ih (i0 + 1) f0 h0 hrest
      | none =>
        have hak : a.identifier.value ≠ k :=
          hna 0 a (by simp) hv
        exact ih (i0 + 1) _ (by rwa [fget_fput_ne _ _ _ _ hak]) hrest

theorem preSolveLoop_events (pairs : List SelectedAuthSolver) (f : Failures)
    (e : Event) (he : e ∈ (preSolveLoop pairs f).1) :
    e.phase = SolverPhase.preSolveCall ∧ ∃ p ∈ pairs, e.idx = p.idx := by
  induction pairs generalizing f with
  | nil => simp [preSolveLoop] at he
  | cons p rest ih =>
    simp only [preSolveLoop] at he
    by_cases hc : p.solver.hasPreSolve
    · simp only [if_pos hc] at he
      rcases List.mem_cons.mp he with heq | hmem
      · subst heq; exact ⟨rfl, p, by simp⟩
      · obtain ⟨hp, q, hq, hidx⟩ := ih _ hmem
        exact ⟨hp, q, List.mem_cons_of_mem p hq, hidx⟩
    · simp only [if_neg hc] at he
      obtain ⟨hp, q, hq, hidx⟩ := ih _ he
      exact ⟨hp, q, List.mem_cons_of_mem p hq, hidx⟩

theorem solveLoop_events (pairs : List SelectedAuthSolver) (f : Failures)
    (e : Event) (he : e ∈ (solveLoop pairs f).1) :
    e.phase = SolverPhase.solveCall ∧ ∃ p ∈ pairs, e.idx = p.idx := by
  induction pairs generalizing f with
  | nil => simp [solveLoop] at he
  | cons p rest ih =>
    simp only [solveLoop] at he
    by_cases hc : (fget f p.authz.identifier.value).isSome
    · simp only [if_pos hc] at he
      obtain ⟨hp, q, hq, hidx⟩ := ih _ he
      exact ⟨hp, q, List.mem_cons_of_mem p hq, hidx⟩
    · simp only [if_neg hc] at he
      rcases List.mem_cons.mp he with heq | hmem
      · subst heq; exact ⟨rfl, p, by simp⟩
      · obtain ⟨hp, q, hq, hidx⟩ := ih _ hmem
        exact ⟨hp, q, List.mem_cons_of_mem p hq, hidx⟩

theorem cleanUpLoop_eq_filter (fails : Failures) (pairs : List SelectedAuthSolver) :
    cleanUpLoop fails pairs =
      (pairs.filter (fun p =>
        p.solver.hasCleanUp && (fget fails p.authz.identifier.value).isNone)).map
        (fun p => Event.mk SolverPhase.cleanUpCall p.idx) := by
  induction pairs with
  | nil => simp [cleanUpLoop]
  | cons p rest ih =>
    cases hc : p.solver.hasCleanUp with
    | true =>
      cases hfo : fget fails p.authz.identifier.value with
      | some e => simp [cleanUpLoop, hc, hfo, ih, List.filter_cons]
      | none => simp [cleanUpLoop, hc, hfo, ih, List.filter_cons]
    | false => simp [cleanUpLoop, hc, ih, List.filter_cons]

theorem preSolveLoop_fails_none (pairs : List SelectedAuthSolver) (f : Failures)
    (k : String) (h0 : fget f k = none)
    (hp : ∀ p ∈ pairs, p.authz.identifier.value ≠ k) :
    fget (preSolveLoop pairs f).2 k = none := by
  induction pairs generalizing f with
  | nil => simpa [preSolveLoop] using h0
  | cons p rest ih =>
    have hpk : p.authz.identifier.value ≠ k := hp p (by simp)
    have hrest : ∀ q ∈ rest, q.authz.identifier.value ≠ k := by
      intro q hq; exact hp q (by simp [hq])
    simp only [preSolveLoop]
    by_cases hc : p.solver.hasPreSolve
    · simp only [if_pos hc]
      cases hps : p.solver.preSolve (getChallenge p.authz p.challengeIndex)
          p.authz.identifier.value with
      | some e =>
        exact ih _ (by rwa [fget_fput_ne _ _ _ _ hpk]) hrest
      | none => exact ih _ h0 hrest
    · simp only [if_neg hc]
      exact ih _ h0 hrest

theorem solveLoop_fails_none (pairs : List SelectedAuthSolver) (f : Failures)
    (k : String) (h0 : fget f k = none)
    (hp : ∀ p ∈ pairs, p.authz.identifier.value ≠ k) :
    fget (solveLoop pairs f).2 k = none := by
  induction pairs generalizing f with
  | nil => simpa [solveLoop] using h0
  | cons p rest ih =>
    have hpk : p.authz.identifier.value ≠ k := hp p (by simp)
    have hrest : ∀ q ∈ rest, q.authz.identifier.value ≠ k := by
      intro q hq; exact hp q (by simp [hq])
    simp only [solveLoop]
    by_cases hc : (fget f p.authz.identifier.value).isSome
    · simp only [if_pos hc]
      exact ih _ h0 hrest
    · simp only [if_neg hc]
      cases hs : p.solver.solve (getChallenge p.authz p.challengeIndex)
          p.authz.identifier.value with
      | some e => exact ih _ (by rwa [fget_fput_ne _ _ _ _ hpk]) hrest
      | none => exact ih _ h0 hrest

theorem getAuthzLoop_fails_nil_iff
    (fetch : String → Except (String × ErrMsg) Authorization)
    (urls : List String) :
    (getAuthzLoop fetch urls).2 = [] ↔
      ∀ u ∈ urls, ∃ a, fetch u = Except.ok a := by
  induction urls with
  | nil => simp [getAuthzLoop]
  | cons url rest ih =>
    simp only [getAuthzLoop]
    cases hf : fetch url with
    | ok a =>
      simp only [List.mem_cons]
      constructor
      · intro h u hu
        rcases hu with rfl | hu
        · exact ⟨a, hf⟩
        · exact ih.mp h u hu
      · intro h
        exact ih.mpr (fun u hu => h u (Or.inr hu))
    | error de =>
      constructor
      · intro h
        exact absurd h (fput_ne_nil _ _ _)
      · intro h
        obtain ⟨a, ha⟩ := h url (by simp)
        rw [hf] at ha
        cases ha

/-- C10: ObtainCertificate called with an empty domain list returns a nil
certificate and a non-nil error immediately, before creating an order or
issuing any request to the CA. -/
theorem c10_obtain_empty_domains
    (post : List Identifier → Except ErrMsg (String × OrderMessage))
    (fetch : String → Except (String × ErrMsg) Authorization)
    (solvers : Solvers)
    (reqCert : OrderResource → Option CertificateResource × Option ErrMsg) :
    ObtainCertificate post fetch solvers reqCert [] =
      { cert := none
        err := some (ObtainErrVal.plain "no domains to obtain a certificate for")
        orderRequested := false } := by
  simp [ObtainCertificate]

/-- C2: the code violates the claim at the finalize step: when the CA response
to the CSR submission reports order status invalid, requestCertificateForCsr
returns no certificate but also a nil error rather than a terminal non-nil
error — client.go line 761 returns the err variable, which is necessarily nil
at that point. -/
theorem c2_finalize_invalid_nil_error :
    requestCertificateForCsr (Except.ok { status := "invalid" })
        (fun _ => Except.ok { status := "processing" })
        (fun _ => Except.ok ("certbytes", "issuerbytes"))
        { domains := ["example.com"] } "" 60 =
      (none, none) := by
  decide

/-- C3 is false on the code: createOrderForIdentifiers performs no
deduplication, so the duplicated input ["a", "a"] is submitted as two
identifiers with the same string value. -/
theorem c3_counterexample :
    (createOrderForIdentifiers (fun _ => Except.ok ("", {}))
        ["a", "a"]).submitted =
      [Identifier.mk "dns" "a", Identifier.mk "dns" "a"] ∧
    ¬ ((createOrderForIdentifiers (fun _ => Except.ok ("", {}))
        ["a", "a"]).submitted.map (fun i => i.value)).Nodup := by
  exact ⟨rfl, by decide⟩

/-- C3 amended: order creation performs no deduplication of its own: the
submitted identifier values are exactly the input domain sequence, so the
identifiers are pairwise distinct exactly when the caller already passed a
duplicate-free sequence (the CSR-derived and renewal paths do so). -/
theorem c3_order_submits_input_verbatim
    (post : List Identifier → Except ErrMsg (String × OrderMessage))
    (domains : List String) :
    ((createOrderForIdentifiers post domains).submitted.map (fun i => i.value)
        = domains) ∧
    (domains.Nodup →
      ((createOrderForIdentifiers post domains).submitted.map
        (fun i => i.value)).Nodup) := by
  have h : (createOrderForIdentifiers post domains).submitted.map
      (fun i => i.value) = domains := by
    simp only [createOrderForIdentifiers, List.map_map]
    induction domains with
    | nil => rfl
    | cons d rest ih => simpa using ih
  exact ⟨h, fun hnd => by rw [h]; exact hnd⟩

/-- Witness for C3 amended at the duplicate-free input ["a", "b"]. -/
theorem c3_order_submits_input_verbatim_witness :
    (["a", "b"] : List String).Nodup ∧
    ((createOrderForIdentifiers (fun _ => Except.ok ("", {}))
      ["a", "b"]).submitted.map (fun i => i.value)).Nodup :=
  ⟨by decide,
    (c3_order_submits_input_verbatim (fun _ => Except.ok ("", {}))
      ["a", "b"]).2 (by decide)⟩

/-- The decoded certificate of the C4 counterexample: common name a.example
with the single DNS SAN entry b.example. -/
def cX4 : X509Cert :=
  { commonName := "a.example", dnsNames := ["b.example"], isCA := false }

/-- C4 is false on the code: for cX4, RenewCertificate derives the domain
list [a.example] — the SAN walk of client.go lines 526-533 only runs when the
certificate has more than one DNS SAN entry — while the claim prescribes
[a.example, b.example]; the fresh issuance is performed over the shorter
list. -/
theorem c4_counterexample :
    renewDomains cX4 = ["a.example"] ∧
    renewDomainsClaim cX4 = ["a.example", "b.example"] ∧
    renewDomains cX4 ≠ renewDomainsClaim cX4 ∧
    (RenewCertificate (fun _ => Except.ok (cX4, []))
        (fun _ => Except.error "unused") (fun _ => (none, none))
        (fun _ => Except.error "unused") (fun _ _ => (none, none))
        {}).freshDomains = some ["a.example"] := by
  exact ⟨by decide, by decide, by decide, by decide⟩

/-- C4 amended: on the renewal path with no preserved CSR (and no reused
key), the fresh issuance is performed over renewDomains of the decoded
certificate: when the certificate has more than one DNS SAN entry this is the
common name followed by every SAN entry different from it, and otherwise it
is the common name alone — a single SAN entry differing from the common name
is dropped. -/
theorem c4_renewal_derives_domains
    (parsePEM : String → Except ErrMsg (X509Cert × List X509Cert))
    (decodeCSR : String → Except ErrMsg String)
    (obtainForCSR : String → Option CertificateResource × Option ErrMsg)
    (parseKey : String → Except ErrMsg String)
    (obtain : List String → Option String →
      Option CertificateResource × Option ErrMsg)
    (cert : CertificateResource) (x : X509Cert) (rest : List X509Cert)
    (hparse : parsePEM cert.certificate = Except.ok (x, rest))
    (hca : x.isCA = false) (hcsr : cert.csr = "") (hkey : cert.privateKey = "") :
    RenewCertificate parsePEM decodeCSR obtainForCSR parseKey obtain cert =
      { freshDomains := some (renewDomains x)
        csrReissued := false
        cert := (obtain (renewDomains x) none).1
        err := (obtain (renewDomains x) none).2 } ∧
    (1 < x.dnsNames.length →
      renewDomains x =
        x.commonName :: x.dnsNames.filter (fun d => d ≠ x.commonName)) ∧
    (x.dnsNames.length ≤ 1 → renewDomains x = [x.commonName]) := by
  refine ⟨?_, ?_, ?_⟩
  · simp [RenewCertificate, hparse, hca, hcsr, hkey]
  · intro h
    simp only [renewDomains, if_pos h]
  · intro h
    simp only [renewDomains]
    rw [if_neg (by omega)]

/-- Concrete fixtures for the C4 witness: a certificate with two DNS SAN
entries, one equal to the common name. -/
def cX4w : X509Cert :=
  { commonName := "cn.example", dnsNames := ["cn.example", "www.example"]
    isCA := false }

def cParse4 (_ : String) : Except ErrMsg (X509Cert × List X509Cert) :=
  Except.ok (cX4w, [])

def cDecode4 (_ : String) : Except ErrMsg String := Except.error "unused"

def cObtainCSR4 (_ : String) : Option CertificateResource × Option ErrMsg :=
  (none, none)

def cParseKey4 (_ : String) : Except ErrMsg String := Except.error "unused"

def cObtain4 (_ : List String) (_ : Option String) :
    Option CertificateResource × Option ErrMsg := (none, none)

/-- Witness for C4 amended at a concrete renewal input. -/
theorem c4_renewal_derives_domains_witness :
    cParse4 ({} : CertificateResource).certificate = Except.ok (cX4w, []) ∧
    cX4w.isCA = false ∧
    RenewCertificate cParse4 cDecode4 cObtainCSR4 cParseKey4 cObtain4 {} =
      { freshDomains := some (renewDomains cX4w)
        csrReissued := false
        cert := (cObtain4 (renewDomains cX4w) none).1
        err := (cObtain4 (renewDomains cX4w) none).2 } :=
  ⟨rfl, rfl,
    (c4_renewal_derives_domains cParse4 cDecode4 cObtainCSR4 cParseKey4
      cObtain4 {} cX4w [] rfl rfl rfl rfl).1⟩

/-- C7: registration against an already-registered key does not fail: a
RemoteError with HTTP status 409 yields a populated RegistrationResource
whose URI is taken from the Location header, with a nil error, while any
other transport error is returned as the error with no resource. -/
theorem c7_register_conflict_adopts (resp : PostAccountResponse)
    (email : String) (tosAgreed : Bool) :
    (∀ d, resp.err = some (ReqError.remote 409 d) →
      (Register resp email tosAgreed).reg =
          some { uri := resp.location, body := resp.body } ∧
        (Register resp email tosAgreed).err = none) ∧
    (∀ e, resp.err = some e → (∀ d, e ≠ ReqError.remote 409 d) →
      (Register resp email tosAgreed).reg = none ∧
        (Register resp email tosAgreed).err = some e) := by
  constructor
  · intro d hd
    simp [Register, hd]
  · intro e he hne
    cases e with
    | remote code d =>
      have hcode : code ≠ 409 := by
        intro h
        exact hne d (by rw [h])
      simp [Register, he, hcode]
    | network m => simp [Register, he]

/-- The 409 Conflict response of the C7 witness. -/
def cResp7 : PostAccountResponse :=
  { location := "https://ca.example/acct/1"
    body := {}
    err := some (ReqError.remote 409 "Conflict") }

/-- Witness for C7 at a concrete 409 response. -/
theorem c7_register_conflict_adopts_witness :
    cResp7.err = some (ReqError.remote 409 "Conflict") ∧
    ((Register cResp7 "user@example.com" true).reg =
        some { uri := cResp7.location, body := cResp7.body } ∧
      (Register cResp7 "user@example.com" true).err = none) :=
  ⟨rfl,
    (c7_register_conflict_adopts cResp7 "user@example.com" true).1
      "Conflict" rfl⟩

theorem certPollLoop_nonterminal (poll : Nat → Except ErrMsg OrderMessage)
    (download : String → Except ErrMsg (String × String))
    (hpoll : ∀ k, ∃ m, poll k = Except.ok m ∧ m.status ≠ "valid" ∧
      m.status ≠ "invalid") :
    ∀ (fuel k : Nat) (certRes : CertificateResource),
      certPollLoop poll download certRes fuel k =
        (none, some "certificate polling timed out") := by
  intro fuel
  induction fuel with
  | zero => intro k certRes; rfl
  | succ n ih =>
    intro k certRes
    obtain ⟨m, hm, hv, hi⟩ := hpoll k
    have hcheck : checkCertResponse download m certRes =
        Except.ok (false, certRes) := by
      unfold checkCertResponse
      rw [if_neg hv]
      by_cases hp : m.status = "processing"
      · rw [if_pos hp]
      · rw [if_neg hp, if_neg hi]
    simp only [certPollLoop, hm, hcheck]
    exact ih (k + 1) certRes

/-- C8: when the CA never reports a terminal order status — the finalize
response is neither valid nor invalid, and every poll succeeds with a status
that is neither valid nor invalid — the finalize poll ends, for every
deadline budget (fuel counts the 500ms ticks the 30-second timer allows),
with the timeout error and no certificate. -/
theorem c8_poll_never_terminal_times_out (retOrder : OrderMessage)
    (poll : Nat → Except ErrMsg OrderMessage)
    (download : String → Except ErrMsg (String × String))
    (order : OrderResource) (pk : String) (fuel : Nat)
    (hfi : retOrder.status ≠ "invalid") (hfv : retOrder.status ≠ "valid")
    (hpoll : ∀ k, ∃ m, poll k = Except.ok m ∧ m.status ≠ "valid" ∧
      m.status ≠ "invalid") :
    requestCertificateForCsr (Except.ok retOrder) poll download order pk fuel =
      (none, some "certificate polling timed out") := by
  simp only [requestCertificateForCsr, hfi, hfv, if_neg, ite_false]
  exact certPollLoop_nonterminal poll download hpoll fuel 0 _

/-- The always-processing CA of the C8 witness. -/
def cPoll8 (_ : Nat) : Except ErrMsg OrderMessage :=
  Except.ok { status := "processing" }

/-- Witness for C8: a CA stuck in processing for the whole 30-second budget
(62 ticks cover 31 seconds) yields the timeout error and no certificate. -/
theorem c8_poll_never_terminal_times_out_witness :
    (({ status := "processing" } : OrderMessage).status ≠ "invalid") ∧
    requestCertificateForCsr (Except.ok { status := "processing" }) cPoll8
        (fun _ => Except.ok ("certbytes", "issuerbytes"))
        { domains := ["example.com"] } "" 62 =
      (none, some "certificate polling timed out") :=
  ⟨by decide,
    c8_poll_never_terminal_times_out { status := "processing" } cPoll8
      (fun _ => Except.ok ("certbytes", "issuerbytes"))
      { domains := ["example.com"] } "" 62 (by decide) (by decide)
      (fun _ => ⟨{ status := "processing" }, rfl, by decide, by decide⟩)⟩

/-- C9: for a duplicate-free, nonempty domain sequence D, the created order
carries D unchanged, and the first element of D is the common name handed to
the CSR generation of the subsequent certificate request. -/
theorem c9_order_preserves_domains
    (post : List Identifier → Except ErrMsg (String × OrderMessage))
    (D : List String) (o : OrderResource)
    (genCsr : String → List String → Bool → Except ErrMsg String)
    (finalizeResp : Except ErrMsg OrderMessage)
    (poll : Nat → Except ErrMsg OrderMessage)
    (download : String → Except ErrMsg (String × String))
    (pk : String) (ms : Bool) (fuel : Nat)
    (hnd : D.Nodup) (hne : D ≠ [])
    (hok : (createOrderForIdentifiers post D).result = Except.ok o) :
    o.domains = D ∧
    (certificateNames o).1 = D.head hne ∧
    (requestCertificateForOrder genCsr finalizeResp poll download o pk ms
      fuel).csrCommonName = D.head hne := by
  have hdom : o.domains = D := by
    cases hpost : post (D.map (fun d => Identifier.mk "dns" d)) with
    | error e => simp [createOrderForIdentifiers, hpost] at hok
    | ok lr =>
      simp [createOrderForIdentifiers, hpost] at hok
      rw [← hok]
  have hhead : o.domains.headD "" = D.head hne := by
    rw [hdom]
    cases D with
    | nil => exact absurd rfl hne
    | cons d rest => rfl
  have hcn : (certificateNames o).1 = D.head hne := by
    rw [certificateNames]
    exact hhead
  refine ⟨hdom, hcn, ?_⟩
  have hcc : (requestCertificateForOrder genCsr finalizeResp poll download o
      pk ms fuel).csrCommonName = (certificateNames o).1 := by
    simp only [requestCertificateForOrder]
    cases hg : genCsr (certificateNames o).1 (certificateNames o).2 ms <;>
      simp [hg]
  rw [hcc, hcn]

/-- The fixed CA response of the C9 witness. -/
def cPost9 (ids : List Identifier) : Except ErrMsg (String × OrderMessage) :=
  Except.ok ("https://ca.example/order/1", { identifiers := ids })

/-- The order the C9 witness creates. -/
def cOrder9 : OrderResource :=
  { url := "https://ca.example/order/1"
    domains := ["example.com", "www.example.com"]
    message :=
      { identifiers :=
          [Identifier.mk "dns" "example.com"
          , Identifier.mk "dns" "www.example.com"] } }

/-- Witness for C9 at the domain list [example.com, www.example.com]. -/
theorem c9_order_preserves_domains_witness :
    (["example.com", "www.example.com"] : List String).Nodup ∧
    (createOrderForIdentifiers cPost9
        ["example.com", "www.example.com"]).result = Except.ok cOrder9 ∧
    cOrder9.domains = ["example.com", "www.example.com"] ∧
    (certificateNames cOrder9).1 = "example.com" :=
  ⟨by decide, rfl,
    (c9_order_preserves_domains cPost9 ["example.com", "www.example.com"]
      cOrder9 (fun _ _ _ => Except.ok "csrbytes")
      (Except.ok { status := "processing" })
      (fun _ => Except.ok { status := "processing" })
      (fun _ => Except.ok ("certbytes", "issuerbytes")) "" false 0
      (by decide) (by decide) rfl).1,
    (c9_order_preserves_domains cPost9 ["example.com", "www.example.com"]
      cOrder9 (fun _ _ _ => Except.ok "csrbytes")
      (Except.ok { status := "processing" })
      (fun _ => Except.ok { status := "processing" })
      (fun _ => Except.ok ("certbytes", "issuerbytes")) "" false 0
      (by decide) (by decide) rfl).2.1⟩

/-- The solver of the C1 counterexample: cleanup-capable, no pre-solve
capability, and its Solve call fails. -/
def cSolver1 : SolverSpec :=
  { hasPreSolve := false
    preSolve := fun _ _ => none
    solve := fun _ _ => some "validation failed"
    hasCleanUp := true
    cleanUp := fun _ _ => none }

def cSolvers1 : Solvers := [("dns-01", cSolver1)]

def cAuth1 : Authorization :=
  { status := "pending"
    identifier := { typ := "dns", value := "fail.example" }
    challenges := [{ typ := "dns-01" }] }

/-- C1 is false on the code: the deferred cleanup observes the failure map
after the solve loop has run and skips every domain with a recorded failure,
so the selected pair below — whose solver has a cleanup capability and whose
Solve call failed — receives no CleanUp call, even though it passed select
and pre-solve. -/
theorem c1_counterexample :
    ((selectLoop cSolvers1 0 [cAuth1] []).1.map
        (fun p => (p.idx, p.solver.hasCleanUp))) = [(0, true)] ∧
    (solveChallengeForAuthz cSolvers1 [cAuth1]).failures =
      [("fail.example", "validation failed")] ∧
    (solveChallengeForAuthz cSolvers1 [cAuth1]).events =
      [Event.mk SolverPhase.solveCall 0] ∧
    Event.mk SolverPhase.cleanUpCall 0 ∉
      (solveChallengeForAuthz cSolvers1 [cAuth1]).events := by
  exact ⟨rfl, by decide, by decide, by decide⟩

/-- C1 amended: CleanUp is invoked after the solve phase exactly for the
selected pairs whose solver has a cleanup capability and whose domain has no
failure recorded by the select, pre-solve or solve phases; in particular a
pair whose Solve call failed is skipped, as is one whose domain failed at
pre-solve, and a pair that failed at select was never selected at all. -/
theorem c1_cleanup_exactly_for_unfailed (solvers : Solvers)
    (auths : List Authorization) :
    (solveChallengeForAuthz solvers auths).events.filter
        (fun e => e.phase == SolverPhase.cleanUpCall) =
      ((selectLoop solvers 0 auths []).1.filter (fun p =>
        p.solver.hasCleanUp &&
          (fget (failuresAfterSolve solvers auths)
            p.authz.identifier.value).isNone)).map
        (fun p => Event.mk SolverPhase.cleanUpCall p.idx) := by
  have hev : (solveChallengeForAuthz solvers auths).events =
      ((preSolveLoop (selectLoop solvers 0 auths []).1
        (selectLoop solvers 0 auths []).2).1 ++
      (solveLoop (selectLoop solvers 0 auths []).1
        (preSolveLoop (selectLoop solvers 0 auths []).1
          (selectLoop solvers 0 auths []).2).2).1) ++
      cleanUpLoop (failuresAfterSolve solvers auths)
        (selectLoop solvers 0 auths []).1 := rfl
  have hfil1 : (preSolveLoop (selectLoop solvers 0 auths []).1
      (selectLoop solvers 0 auths []).2).1.filter
      (fun e => e.phase == SolverPhase.cleanUpCall) = [] := by
    rw [List.filter_eq_nil_iff]
    intro e he
    have hp := (preSolveLoop_events _ _ e he).1
    simp [hp]
  have hfil2 : (solveLoop (selectLoop solvers 0 auths []).1
      (preSolveLoop (selectLoop solvers 0 auths []).1
        (selectLoop solvers 0 auths []).2).2).1.filter
      (fun e => e.phase == SolverPhase.cleanUpCall) = [] := by
    rw [List.filter_eq_nil_iff]
    intro e he
    have hp := (solveLoop_events _ _ e he).1
    simp [hp]
  have hfil3 : (cleanUpLoop (failuresAfterSolve solvers auths)
      (selectLoop solvers 0 auths []).1).filter
      (fun e => e.phase == SolverPhase.cleanUpCall) =
      cleanUpLoop (failuresAfterSolve solvers auths)
        (selectLoop solvers 0 auths []).1 := by
    rw [List.filter_eq_self]
    intro e he
    rw [cleanUpLoop_eq_filter] at he
    obtain ⟨p, hp, hpe⟩ := List.mem_map.mp he
    rw [← hpe]
    simp
  rw [hev, List.filter_append, List.filter_append, hfil1, hfil2, hfil3,
    cleanUpLoop_eq_filter]
  simp

theorem ifGuard_eq_none_iff (F : Failures) :
    (if F = [] then (none : Option Failures) else some F) = none ↔ F = [] := by
  by_cases h : F = [] <;> simp [h]

theorem ifGuard_eq_some (F f : Failures)
    (h : (if F = [] then (none : Option Failures) else some F) = some f) :
    f = F ∧ f ≠ [] := by
  by_cases hF : F = []
  · rw [if_pos hF] at h
    cases h
  · rw [if_neg hF] at h
    cases h
    exact ⟨rfl, hF⟩

theorem getAuthz_errOut_some
    (fetch : String → Except (String × ErrMsg) Authorization)
    (order : OrderResource) (f : Failures)
    (h : (getAuthzForOrder fetch order).errOut = some f) :
    f = (getAuthzForOrder fetch order).failures ∧ f ≠ [] :=
  ifGuard_eq_some _ f h

theorem solveChallenge_errOut_some (solvers : Solvers)
    (auths : List Authorization) (f : Failures)
    (h : (solveChallengeForAuthz solvers auths).errOut = some f) :
    f = (solveChallengeForAuthz solvers auths).failures ∧ f ≠ [] :=
  ifGuard_eq_some _ f h

/-- C5: no aggregation step returns an empty ObtainError as a non-nil error:
the challenge coordinator and the authorization fetcher return an error
exactly when their failure map is non-empty (and then the error is that
non-empty map); the fetcher reports no error exactly when every authorization
fetch succeeded; and every ObtainError surfaced by ObtainCertificate is
non-empty. -/
theorem c5_no_empty_obtain_error :
    (∀ (solvers : Solvers) (auths : List Authorization),
      ((solveChallengeForAuthz solvers auths).errOut = none ↔
        (solveChallengeForAuthz solvers auths).failures = []) ∧
      ∀ f, (solveChallengeForAuthz solvers auths).errOut = some f →
        f = (solveChallengeForAuthz solvers auths).failures ∧ f ≠ []) ∧
    (∀ (fetch : String → Except (String × ErrMsg) Authorization)
        (order : OrderResource),
      ((getAuthzForOrder fetch order).errOut = none ↔
        ∀ u ∈ order.message.authorizations, ∃ a, fetch u = Except.ok a) ∧
      ∀ f, (getAuthzForOrder fetch order).errOut = some f →
        f = (getAuthzForOrder fetch order).failures ∧ f ≠ []) ∧
    (∀ (post : List Identifier → Except ErrMsg (String × OrderMessage))
        (fetch : String → Except (String × ErrMsg) Authorization)
        (solvers : Solvers)
        (reqCert : OrderResource → Option CertificateResource × Option ErrMsg)
        (domains : List String) (f : Failures),
      (ObtainCertificate post fetch solvers reqCert domains).err =
        some (ObtainErrVal.obtainMap f) → f ≠ []) := by
  refine ⟨?_, ?_, ?_⟩
  · intro solvers auths
    exact ⟨ifGuard_eq_none_iff _,
      fun f => solveChallenge_errOut_some solvers auths f⟩
  · intro fetch order
    refine ⟨?_, fun f => getAuthz_errOut_some fetch order f⟩
    have hguard : (getAuthzForOrder fetch order).errOut = none ↔
        (getAuthzForOrder fetch order).failures = [] := ifGuard_eq_none_iff _
    rw [hguard]
    exact getAuthzLoop_fails_nil_iff fetch order.message.authorizations
  · intro post fetch solvers reqCert domains f hf
    simp only [ObtainCertificate] at hf
    by_cases hd : domains = []
    · rw [if_pos hd] at hf
      cases hf
    · rw [if_neg hd] at hf
      cases hco : (createOrderForIdentifiers post domains).result with
      | error e =>
        simp [hco] at hf
      | ok order =>
        simp only [hco] at hf
        cases hao : (getAuthzForOrder fetch order).errOut with
        | some f0 =>
          simp only [hao, Option.some.injEq,
            ObtainErrVal.obtainMap.injEq] at hf
          rw [← hf]
          exact (getAuthz_errOut_some fetch order f0 hao).2
        | none =>
          simp only [hao] at hf
          cases hsc : (solveChallengeForAuthz solvers
              (getAuthzForOrder fetch order).responses).errOut with
          | some f1 =>
            simp only [hsc, Option.some.injEq,
              ObtainErrVal.obtainMap.injEq] at hf
            rw [← hf]
            exact (solveChallenge_errOut_some solvers _ f1 hsc).2
          | none =>
            simp only [hsc] at hf
            cases hce : (reqCert order).2 with
            | none =>
              simp [hce] at hf
            | some e =>
              simp only [hce] at hf
              by_cases hfl : ((getAuthzForOrder fetch order).responses.foldl
                  (fun m a => fput m a.identifier.value e) []) = []
              · simp [hfl] at hf
              · rw [if_neg hfl] at hf
                simp only [Option.some.injEq, ObtainErrVal.obtainMap.injEq]
                  at hf
                rw [← hf]
                exact hfl

/-- Fixtures for the C5 witness: the single authorization fetch fails, so
ObtainCertificate surfaces a one-entry ObtainError. -/
def cPost5 (_ : List Identifier) : Except ErrMsg (String × OrderMessage) :=
  Except.ok ("", { authorizations := ["https://ca.example/authz/1"] })

def cFetch5 (_ : String) : Except (String × ErrMsg) Authorization :=
  Except.error ("", "boom")

def cReq5 (_ : OrderResource) :
    Option CertificateResource × Option ErrMsg := (none, none)

/-- Witness for C5: a concrete run whose surfaced ObtainError has exactly one
entry, which is indeed non-empty. -/
theorem c5_no_empty_obtain_error_witness :
    (ObtainCertificate cPost5 cFetch5 [] cReq5 ["example.com"]).err =
      some (ObtainErrVal.obtainMap [("", "boom")]) ∧
    ([("", "boom")] : Failures) ≠ [] :=
  ⟨by decide,
    c5_no_empty_obtain_error.2.2 cPost5 cFetch5 [] cReq5 ["example.com"]
      [("", "boom")] (by decide)⟩

theorem solveChallenge_events_from_pairs (solvers : Solvers)
    (auths : List Authorization) (e : Event)
    (he : e ∈ (solveChallengeForAuthz solvers auths).events) :
    ∃ p ∈ (selectLoop solvers 0 auths []).1, e.idx = p.idx := by
  have hev : (solveChallengeForAuthz solvers auths).events =
      ((preSolveLoop (selectLoop solvers 0 auths []).1
        (selectLoop solvers 0 auths []).2).1 ++
      (solveLoop (selectLoop solvers 0 auths []).1
        (preSolveLoop (selectLoop solvers 0 auths []).1
          (selectLoop solvers 0 auths []).2).2).1) ++
      cleanUpLoop (failuresAfterSolve solvers auths)
        (selectLoop solvers 0 auths []).1 := rfl
  rw [hev] at he
  rcases List.mem_append.mp he with h12 | h3
  · rcases List.mem_append.mp h12 with h1 | h2
    · exact (preSolveLoop_events _ _ e h1).2
    · exact (solveLoop_events _ _ e h2).2
  · rw [cleanUpLoop_eq_filter] at h3
    obtain ⟨p, hp, hpe⟩ := List.mem_map.mp h3
    exact ⟨p, List.mem_of_mem_filter hp, by rw [← hpe]⟩

/-- C6: an authorization that is already valid when the coordinator runs is
passed to no solver — no pre-solve, solve or cleanup invocation carries its
position — and, when no other authorization shares its domain, its domain has
no entry in the final failure map. -/
theorem c6_valid_authz_skipped (solvers : Solvers)
    (auths : List Authorization) (i : Nat) (a : Authorization)
    (hi : auths[i]? = some a) (hv : a.status = "valid") :
    (∀ e ∈ (solveChallengeForAuthz solvers auths).events, e.idx ≠ i) ∧
    ((∀ (j : Nat) (b : Authorization), j ≠ i → auths[j]? = some b →
        b.identifier.value ≠ a.identifier.value) →
      fget (solveChallengeForAuthz solvers auths).failures
        a.identifier.value = none) := by
  constructor
  · intro e he hei
    obtain ⟨p, hp, hpe⟩ := solveChallenge_events_from_pairs solvers auths e he
    obtain ⟨j, hj, hidx, hs⟩ := selectLoop_pairs_sound solvers auths 0 [] p hp
    have hji : j = i := by omega
    rw [hji, hi] at hj
    cases hj
    exact hs hv
  · intro hother
    have hna : ∀ (j : Nat) (b : Authorization), auths[j]? = some b →
        b.status ≠ "valid" → b.identifier.value ≠ a.identifier.value := by
      intro j b hj hs
      by_cases hji : j = i
      · rw [hji, hi] at hj
        cases hj
        exact absurd hv hs
      · exact hother j b hji hj
    have hpair : ∀ p ∈ (selectLoop solvers 0 auths []).1,
        p.authz.identifier.value ≠ a.identifier.value := by
      intro p hp
      obtain ⟨j, hj, hidx, hs⟩ := selectLoop_pairs_sound solvers auths 0 [] p hp
      exact hna j p.authz hj hs
    have hsel : fget (selectLoop solvers 0 auths []).2
        a.identifier.value = none :=
      selectLoop_fails_none solvers auths 0 [] a.identifier.value rfl hna
    have hpre : fget (preSolveLoop (selectLoop solvers 0 auths []).1
        (selectLoop solvers 0 auths []).2).2 a.identifier.value = none :=
      preSolveLoop_fails_none _ _ _ hsel hpair
    exact solveLoop_fails_none _ _ _ hpre hpair

/-- Fixtures for the C6 witness: one already-valid authorization. -/
def cAuth6 : Authorization :=
  { status := "valid"
    identifier := { typ := "dns", value := "ok.example" }
    challenges := [{ typ := "http-01" }] }

def cAuths6 : List Authorization := [cAuth6]

/-- Witness for C6: with the single valid authorization, its domain gets no
failure entry (and concretely the coordinator performs no solver call). -/
theorem c6_valid_authz_skipped_witness :
    cAuths6[0]? = some cAuth6 ∧
    cAuth6.status = "valid" ∧
    fget (solveChallengeForAuthz [] cAuths6).failures
      cAuth6.identifier.value = none :=
  ⟨rfl, rfl,
    (c6_valid_authz_skipped [] cAuths6 0 cAuth6 rfl rfl).2
      (by
        intro j b hj hb
        cases j with
        | zero => exact absurd rfl hj
        | succ n => simp [cAuths6] at hb)⟩

end Acme







